import Mathlib

/-!
# Verification of the Finvela risk scoring pipeline

A shallow embedding, in Lean 4, of the core risk-scoring subsystem of the
Finvela repository: the composite scoring engine
(`expenseai_risk/engine.py`: `collect_contributors`, `score_from_check`,
`compute_composite`, `persist_risk`) and the orchestrator
(`expenseai_risk/orchestrator.py`: `run_risk_pipeline`).

Modelling conventions:
* Python floats are modelled as rationals (`ℚ`); the arithmetic performed by
  the engine (clamping, weighted sums) is exact on the values the proofs use.
* Python dicts carrying opaque detail payloads are modelled by the `Json`
  inductive below; `dict.get(k, d)` becomes an explicit lookup with default.
* Ambient configuration (`current_app.config`, `resolve_weights`) is passed
  as explicit parameters, matching the spec's pure-function signature
  `compute_composite(contributors, weights, policy_version, max_items)`.
* Database tables are modelled as lists of row structures; the SQLAlchemy
  session's commit/rollback discipline is modelled by explicit snapshots.
-/

namespace Finvela

/-- JSON-like values, modelling the opaque Python dict/list payloads
(`details`, benchmark summaries, event payloads). -/
inductive Json where
  | null : Json
  | bool : Bool → Json
  | str : String → Json
  | num : ℚ → Json
  | arr : List Json → Json
  | obj : List (String × Json) → Json

/-- `d.get(key, default)` on a Python dict value. Non-dict values have no
keys, so the default is returned. -/
def Json.getD (j : Json) (key : String) (d : Json) : Json :=
  match j with
  | .obj fields => (fields.lookup key).getD d
  | _ => d

/-- Coerce a JSON value to a number, with a default for non-numbers. -/
def Json.numD (j : Json) (d : ℚ) : ℚ :=
  match j with
  | .num q => q
  | _ => d

/-- Coerce a JSON value to a list, with a default for non-arrays. -/
def Json.arrD (j : Json) (d : List Json) : List Json :=
  match j with
  | .arr xs => xs
  | _ => d

/-- The `Contributor` dataclass of `engine.py`: a named raw risk signal with
an opaque detail payload. -/
structure Contributor where
  name : String
  raw_score : ℚ
  details : Json

/-- One entry of the waterfall dicts built by `compute_composite`
(`engine.py` lines 118-127). -/
structure WaterfallEntry where
  name : String
  weight : ℚ
  raw_score : ℚ
  contribution : ℚ
  details_json : Json

/-- `weights.get(name, 0.0)`: lookup in the weight mapping with default 0.
The mapping is an association list, mirroring the dict returned by
`resolve_weights`. -/
def dict_get (weights : List (String × ℚ)) (name : String) : ℚ :=
  (weights.lookup name).getD 0

/-- The sort key comparison of `engine.py` line 128:
`waterfall.sort(key=lambda item: abs(item["contribution"]), reverse=True)`.
Entry `a` may precede `b` exactly when `|a.contribution| ≥ |b.contribution|`;
CPython's sort is stable, as is `List.mergeSort`. -/
def waterfallLE (a b : WaterfallEntry) : Bool :=
  decide (|b.contribution| ≤ |a.contribution|)

/-- The sorting step of `compute_composite` (line 128). -/
def sortWaterfall (waterfall : List WaterfallEntry) : List WaterfallEntry :=
  waterfall.mergeSort waterfallLE

/-- The accumulation loop of `compute_composite` (lines 112-127): for each
contributor, clamp the weight below at 0, clamp the raw score into [0,1],
add `weight * raw` to the running total and append the waterfall entry. -/
def scanContributors (weights : List (String × ℚ)) (contributors : List Contributor) :
    ℚ × List WaterfallEntry :=
  contributors.foldl
    (fun acc contrib =>
      let weight := max (dict_get weights contrib.name) 0
      let raw := max 0 (min contrib.raw_score 1)
      let contribution := weight * raw
      (acc.1 + contribution,
        acc.2 ++ [{ name := contrib.name, weight := weight, raw_score := raw,
                    contribution := contribution, details_json := contrib.details }]))
    (0, [])

/-- `compute_composite` (`engine.py` lines 107-132), with the ambient
configuration (`resolve_weights(current_app)` and
`RISK_WATERFALL_MAX_CONTRIBS`, default 8) passed explicitly. -/
def compute_composite (contributors : List Contributor) (weights : List (String × ℚ))
    (policy_version : String) (max_items : ℕ) : ℚ × List WaterfallEntry × String :=
  let tw := scanContributors weights contributors
  let waterfall := sortWaterfall tw.2
  let waterfall := if waterfall.length > max_items then waterfall.take max_items else waterfall
  let composite := min 1 (max 0 tw.1)
  (composite, waterfall, policy_version)

/-- The waterfall entry built from one contributor (the loop body of
`compute_composite`, lines 115-126), as a standalone function. -/
def entryOf (weights : List (String × ℚ)) (contrib : Contributor) : WaterfallEntry :=
  let weight := max (dict_get weights contrib.name) 0
  let raw := max 0 (min contrib.raw_score 1)
  { name := contrib.name, weight := weight, raw_score := raw,
    contribution := weight * raw, details_json := contrib.details }

/-- The weight mapping with every entry for `name` replaced by weight 0
(used to state that a negative configured weight behaves like 0). -/
def zeroName (weights : List (String × ℚ)) (name : String) : List (String × ℚ) :=
  weights.map (fun p => if p.1 = name then (p.1, 0) else p)

/-- The weight mapping with every entry for `name` omitted (used to state
that a negative configured weight behaves like an absent entry). -/
def dropName (weights : List (String × ℚ)) (name : String) : List (String × ℚ) :=
  weights.filter (fun p => p.1 != name)

/-- The module-level status sets of `engine.py` (lines 24-25). -/
def STATUS_FAIL : List String := ["FAIL", "ERROR"]

/-- See `STATUS_FAIL`. -/
def STATUS_WARN : List String := ["WARN", "NEEDS_API"]

/-- Python's `str.upper()`, as used on check statuses. The statuses are
ASCII, for which per-character uppercasing coincides with Python's. -/
def strUpper (s : String) : String := ⟨s.data.map Char.toUpper⟩

/-- One `ComplianceCheck` row, with the fields the engine reads. `status`
is a nullable column (`check.status or ""` in the source). -/
structure ComplianceCheck where
  check_type : String
  status : Option String
  details_json : Json

/-- The nested `score_from_check` of `collect_contributors` (`engine.py`
lines 57-67). The Python keyword defaults `fail_value=1.0, warn_value=0.5`
are passed explicitly at every call site. -/
def score_from_check (check : Option ComplianceCheck) (fail_value warn_value : ℚ) : ℚ :=
  match check with
  | none => 0
  | some c =>
    let status := strUpper (c.status.getD "")
    if status ∈ STATUS_FAIL then fail_value
    else if status ∈ STATUS_WARN then warn_value
    else if status = "PASS" then 0
    else warn_value

/-- The dict comprehension `{check.check_type: check for check in ...}`
(`engine.py` lines 52-55) followed by `.get(t)`: in a Python dict
comprehension a later duplicate key overwrites an earlier one, so lookup
returns the last check with the given type. -/
def checks_get (checks : List ComplianceCheck) (t : String) : Option ComplianceCheck :=
  checks.reverse.find? (fun c => c.check_type == t)

/-- The line ordering of `engine.py` line 37:
`sorted(lines, key=lambda item: item.get("outlier_score", 0.0), reverse=True)`,
with the outlier scores assumed numeric. -/
def lineLE (a b : Json) : Bool :=
  decide ((b.getD "outlier_score" (.num 0)).numD 0 ≤ (a.getD "outlier_score" (.num 0)).numD 0)

/-- `collect_contributors` (`engine.py` lines 28-104). The database and
collaborator inputs are passed explicitly: whether the invoice exists
(`db.session.get`), the benchmark summary (supplied or freshly computed —
either way a dict), the invoice's compliance-check rows and the configured
`RISK_WATERFALL_MAX_CONTRIBS` (default 8). A missing invoice raises
`ValueError`, modelled as `Except.error`. -/
def collect_contributors (invoice_exists : Bool) (summary : Json)
    (checks : List ComplianceCheck) (max_lines : ℕ) : Except String (List Contributor) :=
  if invoice_exists = false then .error "Invoice not found"
  else
    let lines := (summary.getD "lines" (.arr [])).arrD []
    let sorted_lines := lines.mergeSort lineLE
    let top_lines := sorted_lines.take (if max_lines / 2 = 0 then 1 else max_lines / 2)
    let checkContrib := fun (name ty : String) =>
      ({ name := name,
         raw_score := score_from_check (checks_get checks ty) 1 (1/2),
         details := match checks_get checks ty with
                    | some c => c.details_json
                    | none => .obj [] } : Contributor)
    .ok [{ name := "market_outlier",
           raw_score := (summary.getD "avg_outlier_score" (.num 0)).numD 0,
           details := .obj [("top_outliers", .arr top_lines),
                            ("currency", summary.getD "currency" .null),
                            ("computed_at", summary.getD "computed_at" .null)] },
         checkContrib "arithmetic" "ARITHMETIC",
         checkContrib "hsn_rate" "HSN_RATE",
         checkContrib "gst_vendor" "GST_VENDOR",
         checkContrib "gst_company" "GST_COMPANY",
         { name := "duplicate", raw_score := 0,
           details := .obj [("message", .str "Duplicate detection pending implementation.")] }]

/-- One `RiskScore` row (`expenseai_models.risk_score`), with the columns
the engine reads and writes. -/
structure RiskScoreRow where
  id : ℕ
  invoice_id : ℕ
  composite : ℚ
  version : String
  policy_version : String

/-- One `RiskContributor` row. -/
structure RiskContributorRow where
  risk_score_id : ℕ
  name : String
  weight : ℚ
  raw_score : ℚ
  contribution : ℚ
  details_json : Json

/-- The persistent risk tables. `nextId` models the primary-key sequence
assigned by `db.session.flush()`. -/
structure RiskDB where
  riskScores : List RiskScoreRow
  riskContributors : List RiskContributorRow
  nextId : ℕ

/-- The `RiskContributor` row inserted for one waterfall entry
(`engine.py` lines 160-170). -/
def contribRow (sid : ℕ) (entry : WaterfallEntry) : RiskContributorRow :=
  { risk_score_id := sid, name := entry.name, weight := entry.weight,
    raw_score := entry.raw_score, contribution := entry.contribution,
    details_json := entry.details_json }

/-- `persist_risk` (`engine.py` lines 135-173): upsert the `RiskScore` row
for the invoice (`query.filter_by(invoice_id=...).first()` finds the first
matching row; an insert is assigned `nextId` on flush, an update rewrites
the found row in place), then delete every `RiskContributor` row of that
score and insert the waterfall as fresh rows. Returns the new table state
and the score's id. -/
def persist_risk (db : RiskDB) (invoice_id : ℕ) (composite : ℚ)
    (waterfall : List WaterfallEntry) (version policy_version : String) : RiskDB × ℕ :=
  match db.riskScores.find? (fun s => s.invoice_id == invoice_id) with
  | none =>
    let sid := db.nextId
    let scores := db.riskScores ++
      [{ id := sid, invoice_id := invoice_id, composite := composite,
         version := version, policy_version := policy_version }]
    ({ riskScores := scores,
       riskContributors :=
         db.riskContributors.filter (fun c => c.risk_score_id != sid) ++
           waterfall.map (contribRow sid),
       nextId := db.nextId + 1 }, sid)
  | some score =>
    let sid := score.id
    let scores := db.riskScores.map (fun s =>
      if s.id == sid then
        { s with composite := composite, version := version, policy_version := policy_version }
      else s)
    ({ riskScores := scores,
       riskContributors :=
         db.riskContributors.filter (fun c => c.risk_score_id != sid) ++
           waterfall.map (contribRow sid),
       nextId := db.nextId }, sid)

/-- One invoice row, with the fields the orchestrator touches. -/
structure InvoiceRow where
  id : ℕ
  risk_status : String
  risk_notes : Option String

/-- One append-only `InvoiceEvent` row. -/
structure EventRow where
  invoice_id : ℕ
  event_type : String
  payload : Json

/-- One `AuditLog` entry. -/
structure AuditRow where
  action : String
  entity : String
  entity_id : ℕ
  payload : Json

/-- The committed persistent state visible to one pipeline run. -/
structure Store where
  invoices : List InvoiceRow
  risk : RiskDB
  events : List EventRow
  audits : List AuditRow

/-- Modelled from the spec: `Invoice.set_risk_status` (defined in
`expenseai_models.invoice`, which is not among the provided sources) sets
`risk_status` and `risk_notes` on the invoice (spec §4.4 steps 2, 6 and 8).
Its `emit_event` flag is not modelled: the only pipeline events the spec
describes are the explicit `InvoiceEvent.record` calls. -/
def setRiskStatus (s : Store) (iid : ℕ) (status : String) (notes : Option String) : Store :=
  { s with invoices := s.invoices.map (fun inv =>
      if inv.id == iid then { inv with risk_status := status, risk_notes := notes } else inv) }

/-- Modelled from the spec: `InvoiceEvent.record` (in `expenseai_models`,
not among the provided sources) appends one immutable event row (spec §3,
§6 "Event sink"). -/
def recordEvent (s : Store) (iid : ℕ) (ty : String) (payload : Json) : Store :=
  { s with events := s.events ++ [{ invoice_id := iid, event_type := ty, payload := payload }] }

/-- Modelled from the spec: `AuditLog.log` (in `expenseai_models`, not
among the provided sources) is a fire-and-forget audit sink (spec §6). -/
def auditLog (s : Store) (action entity : String) (eid : ℕ) (payload : Json) : Store :=
  { s with audits := s.audits ++
      [{ action := action, entity := entity, entity_id := eid, payload := payload }] }

/-- `db.session.get(Invoice, invoice_id)`. -/
def getInvoice (s : Store) (iid : ℕ) : Option InvoiceRow :=
  s.invoices.find? (fun inv => inv.id == iid)

/-- `orchestrator.py` line 16: `RISK_VERSION = "v1"`. -/
def RISK_VERSION : String := "v1"

/-- The success-path `risk_notes` string (`orchestrator.py` line 70,
`f"Composite risk score {composite:.2f}"`); the two-decimal float
formatting is abstracted to an exact rendering of the rational. -/
def riskNote (composite : ℚ) : String :=
  "Composite risk score " ++ toString composite

/-- One entry of the `top_contribs` list built for the RISK_SUMMARY event
and the completion audit record (`orchestrator.py` lines 72-80). -/
def contribPayload (entry : WaterfallEntry) : Json :=
  .obj [("name", .str entry.name), ("weight", .num entry.weight),
        ("raw_score", .num entry.raw_score), ("contribution", .num entry.contribution)]

/-- The external collaborators and ambient configuration of one pipeline
run: the outcomes of the two fallible benchmark-service calls
(`ingest_invoice_line_items`, `benchmark_invoice`), the invoice's
compliance checks, the resolved weights and policy version, the configured
waterfall size, and the timestamp string used in the RISK_STARTED payload. -/
structure PipelineEnv where
  ingest : Except String Unit
  benchmark : Except String Json
  checks : List ComplianceCheck
  weights : List (String × ℚ)
  policy_version : String
  max_items : ℕ
  timestamp : String

/-- The `except` handler of `run_risk_pipeline` (`orchestrator.py` lines
103-114): `db.session.rollback()` discards uncommitted changes (at the
modelled failure points every prior change was already committed, so the
rollback is the identity on the committed store), the invoice is reloaded,
marked `ERROR` with the failure description as notes (`emit_event=False`),
a RISK_ERROR event is recorded and the session committed. If the invoice
cannot be reloaded, nothing is mutated. -/
def errorRecover (committed : Store) (invoice_id : ℕ) (err : String) : Store :=
  match getInvoice committed invoice_id with
  | none => committed
  | some _ =>
    let s := setRiskStatus committed invoice_id "ERROR" (some err)
    recordEvent s invoice_id "RISK_ERROR"
      (.obj [("invoice_id", .num invoice_id), ("error", .str err)])

/-- `run_risk_pipeline` (`orchestrator.py` lines 36-120). The function is
total: every failure of a collaborator call is routed through
`errorRecover`, never surfaced to the caller. Commit points follow the
source; the audit sink is non-transactional. -/
def run_risk_pipeline (env : PipelineEnv) (store : Store) (invoice_id : ℕ)
    (actor : String) : Store :=
  match getInvoice store invoice_id with
  | none => store
  | some _ =>
    let s := setRiskStatus store invoice_id "IN_PROGRESS" none
    let s := recordEvent s invoice_id "RISK_STARTED"
      (.obj [("invoice_id", .num invoice_id), ("actor", .str actor),
             ("timestamp", .str env.timestamp)])
    let s := auditLog s "risk_run_started" "invoice" invoice_id (.obj [("actor", .str actor)])
    match env.ingest with
    | .error e => errorRecover s invoice_id e
    | .ok _ =>
      match env.benchmark with
      | .error e => errorRecover s invoice_id e
      | .ok summary =>
        match collect_contributors (getInvoice s invoice_id).isSome summary
            env.checks env.max_items with
        | .error e => errorRecover s invoice_id e
        | .ok contributors =>
          let cw := compute_composite contributors env.weights env.policy_version env.max_items
          let composite := cw.1
          let waterfall := cw.2.1
          let pr := persist_risk s.risk invoice_id composite waterfall RISK_VERSION cw.2.2
          let s := { s with risk := pr.1 }
          let s := setRiskStatus s invoice_id "READY" (some (riskNote composite))
          let s := recordEvent s invoice_id "RISK_SUMMARY"
            (.obj [("invoice_id", .num invoice_id), ("composite", .num composite),
                   ("avg_outlier_score", summary.getD "avg_outlier_score" .null),
                   ("contributors", .arr (waterfall.map contribPayload))])
          let s := recordEvent s invoice_id "RISK_READY"
            (.obj [("invoice_id", .num invoice_id), ("composite", .num composite),
                   ("version", .str RISK_VERSION), ("policy_version", .str cw.2.2)])
          auditLog s "risk_run_completed" "invoice" invoice_id
            (.obj [("composite", .num composite),
                   ("contributors", .arr (waterfall.map contribPayload))])

lemma scanContributors_go (weights : List (String × ℚ)) (contributors : List Contributor)
    (acc : ℚ × List WaterfallEntry) :
    contributors.foldl
      (fun acc contrib =>
        let weight := max (dict_get weights contrib.name) 0
        let raw := max 0 (min contrib.raw_score 1)
        let contribution := weight * raw
        (acc.1 + contribution,
          acc.2 ++ [{ name := contrib.name, weight := weight, raw_score := raw,
                      contribution := contribution, details_json := contrib.details }]))
      acc =
    (acc.1 + ((contributors.map (entryOf weights)).map WaterfallEntry.contribution).sum,
      acc.2 ++ contributors.map (entryOf weights)) := by
  induction contributors generalizing acc with
  | nil => simp
  | cons c cs ih =>
      simp only [List.foldl_cons, List.map_cons, List.sum_cons, List.cons_append]
      rw [ih]
      simp [entryOf, add_assoc]

/-- The loop of `compute_composite` computes the map of `entryOf` and the sum
of its contributions. -/
lemma scanContributors_eq (weights : List (String × ℚ)) (contributors : List Contributor) :
    scanContributors weights contributors =
      (((contributors.map (entryOf weights)).map WaterfallEntry.contribution).sum,
        contributors.map (entryOf weights)) := by
  simpa using scanContributors_go weights contributors (0, [])

/-- The composite is the clamped sum of the per-contributor contributions. -/
lemma compute_composite_fst (contributors : List Contributor) (weights : List (String × ℚ))
    (pv : String) (m : ℕ) :
    (compute_composite contributors weights pv m).1 =
      min 1 (max 0 (((contributors.map (entryOf weights)).map WaterfallEntry.contribution).sum)) := by
  simp only [compute_composite, scanContributors_eq]

/-- The returned waterfall is the `m`-prefix of the sorted entry list. -/
lemma compute_composite_waterfall (contributors : List Contributor)
    (weights : List (String × ℚ)) (pv : String) (m : ℕ) :
    (compute_composite contributors weights pv m).2.1 =
      (sortWaterfall (contributors.map (entryOf weights))).take m := by
  simp only [compute_composite, scanContributors_eq]
  split
  · rfl
  · next h =>
      rw [List.take_of_length_le]
      omega

/-- Every returned waterfall entry is the image of some input contributor. -/
lemma mem_waterfall {contributors : List Contributor} {weights : List (String × ℚ)}
    {pv : String} {m : ℕ} {e : WaterfallEntry}
    (he : e ∈ (compute_composite contributors weights pv m).2.1) :
    ∃ c ∈ contributors, entryOf weights c = e := by
  rw [compute_composite_waterfall] at he
  have h2 : e ∈ sortWaterfall (contributors.map (entryOf weights)) :=
    (List.take_sublist m _).mem he
  rw [sortWaterfall, List.mem_mergeSort] at h2
  exact List.mem_map.mp h2

lemma waterfallLE_trans (a b c : WaterfallEntry) :
    waterfallLE a b → waterfallLE b c → waterfallLE a c := by
  simp only [waterfallLE, decide_eq_true_eq]
  exact fun h1 h2 => le_trans h2 h1

lemma waterfallLE_total (a b : WaterfallEntry) : waterfallLE a b || waterfallLE b a := by
  simp only [waterfallLE]
  rcases le_total |a.contribution| |b.contribution| with h | h <;> simp [h]

/-- The sorted waterfall is pairwise descending in `|contribution|`. -/
lemma sortWaterfall_pairwise (entries : List WaterfallEntry) :
    (sortWaterfall entries).Pairwise (fun a b => |b.contribution| ≤ |a.contribution|) := by
  have h := List.sorted_mergeSort waterfallLE_trans waterfallLE_total entries
  exact h.imp (by simp only [waterfallLE, decide_eq_true_eq]; exact id)

/-- Stability of the waterfall sort: for any tie class of `|contribution|`,
the sorted list retains the input order. -/
lemma filter_sortWaterfall (entries : List WaterfallEntry) (q : ℚ) :
    (sortWaterfall entries).filter (fun e => decide (|e.contribution| = q)) =
      entries.filter (fun e => decide (|e.contribution| = q)) := by
  have hpair : (entries.filter (fun e => decide (|e.contribution| = q))).Pairwise
      (fun a b => waterfallLE a b) := by
    apply List.pairwise_of_forall_mem_list
    intro a ha b hb
    have ha' := List.of_mem_filter ha
    have hb' := List.of_mem_filter hb
    simp only [decide_eq_true_eq] at ha' hb'
    simp only [waterfallLE, decide_eq_true_eq, hb', ha', le_refl]
  have hsub : (entries.filter (fun e => decide (|e.contribution| = q))).Sublist
      (sortWaterfall entries) :=
    List.sublist_mergeSort waterfallLE_trans waterfallLE_total hpair
      (List.filter_sublist entries)
  have hsub2 : (entries.filter (fun e => decide (|e.contribution| = q))).Sublist
      ((sortWaterfall entries).filter (fun e => decide (|e.contribution| = q))) := by
    have := List.Sublist.filter (fun e => decide (|e.contribution| = q)) hsub
    rw [List.filter_filter] at this
    have heq : (fun a => decide (|a.contribution| = q) && decide (|a.contribution| = q)) =
        (fun e : WaterfallEntry => decide (|e.contribution| = q)) := by
      funext a; exact Bool.and_self _
    rwa [heq] at this
  have hlen : ((sortWaterfall entries).filter (fun e => decide (|e.contribution| = q))).length =
      (entries.filter (fun e => decide (|e.contribution| = q))).length :=
    ((List.mergeSort_perm entries waterfallLE).filter _).length_eq
  exact (hsub2.eq_of_length hlen.symm).symm

/-- Claim C1: `compute_composite` returns
`composite = clamp(Σ over contributors of max(weight(name), 0) * clamp(raw_score, 0, 1), 0, 1)`;
the composite always lies in [0,1] regardless of contributor count, weight
magnitude or raw-score sign, and each waterfall entry's contribution equals
`weight * clamped raw_score` exactly. -/
theorem C1_composite_is_clamped_weighted_sum
    (contributors : List Contributor) (weights : List (String × ℚ))
    (pv : String) (max_items : ℕ) :
    (compute_composite contributors weights pv max_items).1 =
      min 1 (max 0 ((contributors.map (fun c =>
        max (dict_get weights c.name) 0 * max 0 (min c.raw_score 1))).sum)) ∧
    0 ≤ (compute_composite contributors weights pv max_items).1 ∧
    (compute_composite contributors weights pv max_items).1 ≤ 1 ∧
    ∀ e ∈ (compute_composite contributors weights pv max_items).2.1,
      e.contribution = e.weight * e.raw_score := by
  have hmap : (contributors.map (entryOf weights)).map WaterfallEntry.contribution
      = contributors.map (fun c =>
          max (dict_get weights c.name) 0 * max 0 (min c.raw_score 1)) := by
    rw [List.map_map]; rfl
  refine ⟨?_, ?_, ?_, ?_⟩
  · rw [compute_composite_fst, hmap]
  · rw [compute_composite_fst]
    exact le_min (by norm_num) (le_max_left _ _)
  · rw [compute_composite_fst]
    exact min_le_left _ _
  · intro e he
    obtain ⟨c, _, hc⟩ := mem_waterfall he
    subst hc
    rfl

/-- Claim C4: truncating the waterfall to the first `max_items` entries is
presentation-only: the composite does not depend on `max_items` at all, and
the returned waterfall is exactly the `max_items`-prefix of the full sorted
waterfall. -/
theorem C4_truncation_never_changes_composite
    (contributors : List Contributor) (weights : List (String × ℚ))
    (pv : String) (m1 m2 : ℕ) :
    (compute_composite contributors weights pv m1).1 =
      (compute_composite contributors weights pv m2).1 ∧
    (compute_composite contributors weights pv m1).2.1 =
      (sortWaterfall ((scanContributors weights contributors).2)).take m1 := by
  constructor
  · rw [compute_composite_fst, compute_composite_fst]
  · rw [compute_composite_waterfall, scanContributors_eq]

lemma dict_get_zeroName_self (weights : List (String × ℚ)) (name : String) :
    dict_get (zeroName weights name) name = 0 := by
  induction weights with
  | nil => rfl
  | cons p w ih =>
      obtain ⟨k, v⟩ := p
      by_cases h : k = name
      · subst h
        simp [zeroName, dict_get]
      · have hb : (name == k) = false := beq_eq_false_iff_ne.mpr (Ne.symm h)
        simpa [zeroName, dict_get, List.lookup_cons, if_neg h, hb] using ih

lemma dict_get_zeroName_ne (weights : List (String × ℚ)) (name n : String) (h : n ≠ name) :
    dict_get (zeroName weights name) n = dict_get weights n := by
  induction weights with
  | nil => rfl
  | cons p w ih =>
      obtain ⟨k, v⟩ := p
      by_cases hk : k = name
      · have hb : (n == k) = false := beq_eq_false_iff_ne.mpr (hk ▸ h)
        simpa [zeroName, dict_get, List.lookup_cons, if_pos hk, hb] using ih
      · by_cases hn : n = k
        · subst hn
          simp [zeroName, dict_get, List.lookup_cons, if_neg hk]
        · have hb : (n == k) = false := beq_eq_false_iff_ne.mpr hn
          simpa [zeroName, dict_get, List.lookup_cons, if_neg hk, hb] using ih

lemma dict_get_dropName_self (weights : List (String × ℚ)) (name : String) :
    dict_get (dropName weights name) name = 0 := by
  induction weights with
  | nil => rfl
  | cons p w ih =>
      obtain ⟨k, v⟩ := p
      by_cases h : k = name
      · subst h
        simpa [dropName, List.filter_cons] using ih
      · have hkeep : (k != name) = true := bne_iff_ne.mpr h
        have hb : (name == k) = false := beq_eq_false_iff_ne.mpr (Ne.symm h)
        simpa [dropName, dict_get, List.filter_cons, hkeep, List.lookup_cons, hb] using ih

lemma dict_get_dropName_ne (weights : List (String × ℚ)) (name n : String) (h : n ≠ name) :
    dict_get (dropName weights name) n = dict_get weights n := by
  induction weights with
  | nil => rfl
  | cons p w ih =>
      obtain ⟨k, v⟩ := p
      by_cases hk : k = name
      · subst hk
        have hb : (n == k) = false := beq_eq_false_iff_ne.mpr h
        simpa [dropName, dict_get, List.filter_cons, List.lookup_cons, hb] using ih
      · have hkeep : (k != name) = true := bne_iff_ne.mpr hk
        by_cases hn : n = k
        · subst hn
          simp [dropName, dict_get, List.filter_cons, hkeep, List.lookup_cons]
        · have hb : (n == k) = false := beq_eq_false_iff_ne.mpr hn
          simpa [dropName, dict_get, List.filter_cons, hkeep, List.lookup_cons, hb] using ih

/-- `compute_composite` only reads the weight mapping through
`max (weights.get name) 0`. -/
lemma compute_composite_congr_weights (contributors : List Contributor)
    (w1 w2 : List (String × ℚ)) (pv : String) (m : ℕ)
    (h : ∀ n, max (dict_get w1 n) 0 = max (dict_get w2 n) 0) :
    compute_composite contributors w1 pv m = compute_composite contributors w2 pv m := by
  have hentry : entryOf w1 = entryOf w2 := by
    funext c
    simp only [entryOf, h c.name]
  simp only [compute_composite, scanContributors_eq, hentry]

/-- Claim C5: a contributor name configured with a negative weight behaves
exactly as if its weight were 0, and exactly as if the entry were omitted
from the mapping: `compute_composite` returns the same composite and the
same waterfall. -/
theorem C5_negative_weight_treated_as_zero (contributors : List Contributor)
    (weights : List (String × ℚ)) (pv : String) (max_items : ℕ)
    (name : String) (w : ℚ)
    (hlook : weights.lookup name = some w) (hneg : w < 0) :
    compute_composite contributors weights pv max_items =
      compute_composite contributors (zeroName weights name) pv max_items ∧
    compute_composite contributors weights pv max_items =
      compute_composite contributors (dropName weights name) pv max_items := by
  have hself : max (dict_get weights name) 0 = 0 := by
    rw [dict_get, hlook]
    exact max_eq_right hneg.le
  constructor
  · apply compute_composite_congr_weights
    intro n
    by_cases hn : n = name
    · subst hn
      rw [hself, dict_get_zeroName_self]
      simp
    · rw [dict_get_zeroName_ne _ _ _ hn]
  · apply compute_composite_congr_weights
    intro n
    by_cases hn : n = name
    · subst hn
      rw [hself, dict_get_dropName_self]
      simp
    · rw [dict_get_dropName_ne _ _ _ hn]

theorem C5_negative_weight_treated_as_zero_witness :
    ([("x", (-1 : ℚ))].lookup "x" = some (-1)) ∧ ((-1 : ℚ) < 0) ∧
    (compute_composite [⟨"x", 1, Json.null⟩] [("x", (-1 : ℚ))] "seed" 8 =
      compute_composite [⟨"x", 1, Json.null⟩] (zeroName [("x", (-1 : ℚ))] "x") "seed" 8 ∧
     compute_composite [⟨"x", 1, Json.null⟩] [("x", (-1 : ℚ))] "seed" 8 =
      compute_composite [⟨"x", 1, Json.null⟩] (dropName [("x", (-1 : ℚ))] "x") "seed" 8) :=
  ⟨rfl, by norm_num,
    C5_negative_weight_treated_as_zero [⟨"x", 1, Json.null⟩] [("x", (-1 : ℚ))]
      "seed" 8 "x" (-1) rfl (by norm_num)⟩

/-- Claim C6: the waterfall returned by `compute_composite` is sorted by
`|contribution|` descending; the sort is stable (each tie class keeps its
input order); and sorting entries A, B, C with contributions
`[0.1, -0.5, 0.3]` yields the order `[B, C, A]`. -/
theorem C6_waterfall_sorted_by_abs_descending_stable :
    (∀ (contributors : List Contributor) (weights : List (String × ℚ))
        (pv : String) (m : ℕ),
      ((compute_composite contributors weights pv m).2.1).Pairwise
        (fun a b => |b.contribution| ≤ |a.contribution|)) ∧
    (∀ (entries : List WaterfallEntry) (q : ℚ),
      (sortWaterfall entries).filter (fun e => decide (|e.contribution| = q)) =
        entries.filter (fun e => decide (|e.contribution| = q))) ∧
    (sortWaterfall
      [{ name := "A", weight := 1, raw_score := 1, contribution := 1/10, details_json := .null },
       { name := "B", weight := 1, raw_score := 1, contribution := -(1/2), details_json := .null },
       { name := "C", weight := 1, raw_score := 1, contribution := 3/10, details_json := .null }]).map
      WaterfallEntry.name = ["B", "C", "A"] := by
  refine ⟨?_, filter_sortWaterfall, ?_⟩
  · intro contributors weights pv m
    rw [compute_composite_waterfall]
    exact (sortWaterfall_pairwise _).sublist (List.take_sublist _ _)
  · norm_num [sortWaterfall, List.mergeSort, List.merge, waterfallLE, abs]

lemma entryOf_spec (weights : List (String × ℚ)) (c : Contributor) :
    0 ≤ (entryOf weights c).weight ∧ 0 ≤ (entryOf weights c).raw_score ∧
    (entryOf weights c).raw_score ≤ 1 ∧
    (entryOf weights c).contribution = (entryOf weights c).weight * (entryOf weights c).raw_score ∧
    0 ≤ (entryOf weights c).contribution := by
  refine ⟨le_max_right _ _, le_max_left _ _, ?_, rfl, ?_⟩
  · exact max_le (by norm_num) (min_le_right _ _)
  · exact mul_nonneg (le_max_right _ _) (le_max_left _ _)

lemma scan_total_nonneg (weights : List (String × ℚ)) (contributors : List Contributor) :
    0 ≤ (scanContributors weights contributors).1 := by
  rw [scanContributors_eq]
  apply List.sum_nonneg
  intro x hx
  rw [List.map_map] at hx
  obtain ⟨c, _, hc⟩ := List.mem_map.mp hx
  rw [← hc]
  exact (entryOf_spec weights c).2.2.2.2

/-- Claim C9: every waterfall entry has non-negative weight, a raw score in
[0,1] and a non-negative contribution equal to `weight * raw_score`; the
pre-clamp total is non-negative, so the lower clamp never takes effect
(`composite = min 1 total`); and the waterfall is also sorted by plain
`contribution` descending. -/
theorem C9_entries_nonneg_lower_clamp_vacuous (contributors : List Contributor)
    (weights : List (String × ℚ)) (pv : String) (max_items : ℕ) :
    (∀ e ∈ (compute_composite contributors weights pv max_items).2.1,
       0 ≤ e.weight ∧ 0 ≤ e.raw_score ∧ e.raw_score ≤ 1 ∧
       e.contribution = e.weight * e.raw_score ∧ 0 ≤ e.contribution) ∧
    0 ≤ (scanContributors weights contributors).1 ∧
    (compute_composite contributors weights pv max_items).1 =
      min 1 ((scanContributors weights contributors).1) ∧
    ((compute_composite contributors weights pv max_items).2.1).Pairwise
      (fun a b => b.contribution ≤ a.contribution) := by
  have hmem : ∀ e ∈ (compute_composite contributors weights pv max_items).2.1,
      0 ≤ e.weight ∧ 0 ≤ e.raw_score ∧ e.raw_score ≤ 1 ∧
      e.contribution = e.weight * e.raw_score ∧ 0 ≤ e.contribution := by
    intro e he
    obtain ⟨c, _, hc⟩ := mem_waterfall he
    rw [← hc]
    exact entryOf_spec weights c
  refine ⟨hmem, scan_total_nonneg weights contributors, ?_, ?_⟩
  · rw [compute_composite_fst]
    have := scan_total_nonneg weights contributors
    rw [scanContributors_eq] at this
    rw [scanContributors_eq, max_eq_right this]
  · have habs : ((compute_composite contributors weights pv max_items).2.1).Pairwise
        (fun a b => |b.contribution| ≤ |a.contribution|) := by
      rw [compute_composite_waterfall]
      exact (sortWaterfall_pairwise _).sublist (List.take_sublist _ _)
    apply habs.imp_of_mem
    intro a b ha hb h
    have hha := (hmem a ha).2.2.2.2
    have hhb := (hmem b hb).2.2.2.2
    rwa [abs_of_nonneg hha, abs_of_nonneg hhb] at h

lemma sum_map_set_le (f : Contributor → ℚ) :
    ∀ (l : List Contributor) (i : ℕ) (c' : Contributor) (hi : i < l.length),
      f (l.get ⟨i, hi⟩) ≤ f c' → (l.map f).sum ≤ ((l.set i c').map f).sum
  | [], i, _, hi, _ => by simp at hi
  | a :: l, 0, c', _, h => by
      simp only [List.set_cons_zero, List.map_cons, List.sum_cons]
      exact add_le_add_right h _
  | a :: l, i + 1, c', hi, h => by
      simp only [List.set_cons_succ, List.map_cons, List.sum_cons]
      exact add_le_add_left
        (sum_map_set_le f l i c' (Nat.lt_of_succ_lt_succ hi) h) _

/-- Claim C10: `compute_composite` is monotone in each raw score: raising
one contributor's `raw_score` (same name, same details, all other
contributors unchanged) never decreases the composite. -/
theorem C10_composite_monotone_in_raw_score (contributors : List Contributor)
    (weights : List (String × ℚ)) (pv : String) (max_items : ℕ)
    (i : ℕ) (r : ℚ) (hi : i < contributors.length)
    (hr : (contributors.get ⟨i, hi⟩).raw_score ≤ r) :
    (compute_composite contributors weights pv max_items).1 ≤
      (compute_composite (contributors.set i
        { contributors.get ⟨i, hi⟩ with raw_score := r }) weights pv max_items).1 := by
  rw [compute_composite_fst, compute_composite_fst]
  apply min_le_min le_rfl
  apply max_le_max le_rfl
  rw [List.map_map, List.map_map]
  apply sum_map_set_le (WaterfallEntry.contribution ∘ entryOf weights) contributors i _ hi
  show max (dict_get weights (contributors.get ⟨i, hi⟩).name) 0 *
      max 0 (min (contributors.get ⟨i, hi⟩).raw_score 1) ≤
    max (dict_get weights (contributors.get ⟨i, hi⟩).name) 0 * max 0 (min r 1)
  exact mul_le_mul_of_nonneg_left
    (max_le_max le_rfl (min_le_min hr le_rfl)) (le_max_right _ _)

theorem C10_composite_monotone_in_raw_score_witness :
    (0 < ([⟨"a", 1/2, Json.null⟩] : List Contributor).length) ∧
    ((1 : ℚ)/2 ≤ 1) ∧
    (compute_composite [⟨"a", 1/2, Json.null⟩] [("a", 1)] "seed" 8).1 ≤
      (compute_composite (([⟨"a", 1/2, Json.null⟩] : List Contributor).set 0
        ⟨"a", 1, Json.null⟩) [("a", 1)] "seed" 8).1 :=
  ⟨by decide, by norm_num,
    C10_composite_monotone_in_raw_score [⟨"a", 1/2, Json.null⟩] [("a", 1)] "seed" 8
      0 1 (by decide) (by norm_num)⟩

/-- Claim C7: the raw score assigned to a compliance check: status compared
case-insensitively (uppercased) equal to FAIL or ERROR gives the fail value
1.0; WARN, NEEDS_API or any unrecognized status gives the warn value 0.5;
PASS gives 0.0; and a missing check gives 0.0. -/
theorem C7_score_from_check_status_mapping :
    score_from_check none 1 (1/2) = 0 ∧
    ∀ c : ComplianceCheck,
      ((strUpper (c.status.getD "") = "FAIL" ∨ strUpper (c.status.getD "") = "ERROR") →
        score_from_check (some c) 1 (1/2) = 1) ∧
      ((strUpper (c.status.getD "") = "WARN" ∨ strUpper (c.status.getD "") = "NEEDS_API") →
        score_from_check (some c) 1 (1/2) = 1/2) ∧
      (strUpper (c.status.getD "") = "PASS" → score_from_check (some c) 1 (1/2) = 0) ∧
      (strUpper (c.status.getD "") ∉
          (["FAIL", "ERROR", "WARN", "NEEDS_API", "PASS"] : List String) →
        score_from_check (some c) 1 (1/2) = 1/2) := by
  refine ⟨rfl, fun c => ⟨?_, ?_, ?_, ?_⟩⟩
  · rintro (h | h) <;> simp [score_from_check, STATUS_FAIL, STATUS_WARN, h]
  · rintro (h | h) <;> simp [score_from_check, STATUS_FAIL, STATUS_WARN, h]
  · intro h
    simp [score_from_check, STATUS_FAIL, STATUS_WARN, h]
  · intro h
    simp only [List.mem_cons, List.not_mem_nil, or_false, not_or] at h
    obtain ⟨h1, h2, h3, h4, h5⟩ := h
    simp [score_from_check, STATUS_FAIL, STATUS_WARN, h1, h2, h3, h4, h5]

theorem C7_score_from_check_status_mapping_witness :
    score_from_check (some ⟨"ARITHMETIC", some "fail", Json.null⟩) 1 (1/2) = 1 ∧
    score_from_check (some ⟨"HSN_RATE", some "needs_api", Json.null⟩) 1 (1/2) = 1/2 ∧
    score_from_check (some ⟨"GST_VENDOR", some "pass", Json.null⟩) 1 (1/2) = 0 ∧
    score_from_check (some ⟨"GST_COMPANY", some "SKIPPED", Json.null⟩) 1 (1/2) = 1/2 :=
  ⟨(C7_score_from_check_status_mapping.2 ⟨"ARITHMETIC", some "fail", Json.null⟩).1
      (Or.inl (by decide)),
   (C7_score_from_check_status_mapping.2 ⟨"HSN_RATE", some "needs_api", Json.null⟩).2.1
      (Or.inr (by decide)),
   (C7_score_from_check_status_mapping.2 ⟨"GST_VENDOR", some "pass", Json.null⟩).2.2.1
      (by decide),
   (C7_score_from_check_status_mapping.2 ⟨"GST_COMPANY", some "SKIPPED", Json.null⟩).2.2.2
      (by decide)⟩

/-- Claim C8: for an existing invoice, `collect_contributors` returns
exactly six contributors in the fixed order market_outlier, arithmetic,
hsn_rate, gst_vendor, gst_company, duplicate; the duplicate contributor
always has raw score 0 and a detail note that duplicate detection is not
implemented. -/
theorem C8_collect_contributors_six_fixed_order (summary : Json)
    (checks : List ComplianceCheck) (max_lines : ℕ) :
    ∃ l, collect_contributors true summary checks max_lines = .ok l ∧
      l.map Contributor.name =
        ["market_outlier", "arithmetic", "hsn_rate", "gst_vendor", "gst_company", "duplicate"] ∧
      l.length = 6 ∧
      l.getLast? = some
        ⟨"duplicate", 0,
          .obj [("message", .str "Duplicate detection pending implementation.")]⟩ :=
  ⟨_, rfl, rfl, rfl, rfl⟩

/-- The delete-then-insert of contributor rows leaves, for the score's id,
exactly the freshly inserted waterfall rows. -/
lemma contrib_replace (old : List RiskContributorRow) (waterfall : List WaterfallEntry)
    (sid : ℕ) :
    ((old.filter (fun c => c.risk_score_id != sid) ++ waterfall.map (contribRow sid)).filter
      (fun c => c.risk_score_id == sid)) = waterfall.map (contribRow sid) := by
  rw [List.filter_append]
  have h1 : (old.filter (fun c => c.risk_score_id != sid)).filter
      (fun c => c.risk_score_id == sid) = [] := by
    rw [List.filter_filter]
    apply List.filter_eq_nil_iff.mpr
    intro a _
    simp [bne, Bool.and_not_self]
  have h2 : (waterfall.map (contribRow sid)).filter (fun c => c.risk_score_id == sid) =
      waterfall.map (contribRow sid) := by
    apply List.filter_eq_self.mpr
    intro a ha
    obtain ⟨e, _, he⟩ := List.mem_map.mp ha
    rw [← he]
    exact beq_self_eq_true sid
  rw [h1, h2, List.nil_append]

/-- Claim C3: `persist_risk` maintains at most one RiskScore row per
invoice: starting from a table with at most one row for the invoice it ends
with exactly one; a missing row is inserted (length grows by one) and an
existing row is updated in place (length unchanged); the row carries the
new composite, version and policy version; and the RiskContributor rows
attached to that score afterwards are exactly the waterfall passed in, with
no leftovers from any earlier run. -/
theorem C3_persist_risk_upsert_replaces_contributors (db : RiskDB) (iid : ℕ)
    (comp : ℚ) (waterfall : List WaterfallEntry) (v pv : String)
    (hle : db.riskScores.countP (fun s => s.invoice_id == iid) ≤ 1) :
    (persist_risk db iid comp waterfall v pv).1.riskScores.countP
        (fun s => s.invoice_id == iid) = 1 ∧
    (db.riskScores.countP (fun s => s.invoice_id == iid) = 0 →
      (persist_risk db iid comp waterfall v pv).1.riskScores.length =
        db.riskScores.length + 1) ∧
    (db.riskScores.countP (fun s => s.invoice_id == iid) ≠ 0 →
      (persist_risk db iid comp waterfall v pv).1.riskScores.length =
        db.riskScores.length) ∧
    (∃ s ∈ (persist_risk db iid comp waterfall v pv).1.riskScores,
      s.id = (persist_risk db iid comp waterfall v pv).2 ∧ s.invoice_id = iid ∧
      s.composite = comp ∧ s.version = v ∧ s.policy_version = pv) ∧
    ((persist_risk db iid comp waterfall v pv).1.riskContributors.filter
        (fun c => c.risk_score_id == (persist_risk db iid comp waterfall v pv).2)) =
      waterfall.map (contribRow (persist_risk db iid comp waterfall v pv).2) := by
  cases hfind : db.riskScores.find? (fun s => s.invoice_id == iid) with
  | none =>
      have hzero : db.riskScores.countP (fun s => s.invoice_id == iid) = 0 :=
        List.countP_eq_zero.mpr (List.find?_eq_none.mp hfind)
      simp only [persist_risk, hfind]
      refine ⟨?_, fun _ => ?_, fun hne => absurd hzero hne, ?_, ?_⟩
      · rw [List.countP_append, hzero]
        simp
      · simp
      · refine ⟨_, List.mem_append_right _ (List.mem_singleton.mpr rfl), rfl, rfl, rfl, rfl, rfl⟩
      · exact contrib_replace _ _ _
  | some score =>
      have hp : (score.invoice_id == iid) = true :=
        @List.find?_some _ (fun s => s.invoice_id == iid) score db.riskScores hfind
      have hmem : score ∈ db.riskScores := List.mem_of_find?_eq_some hfind
      have hpos : 0 < db.riskScores.countP (fun s => s.invoice_id == iid) :=
        List.countP_pos_iff.mpr ⟨score, hmem, hp⟩
      have hone : db.riskScores.countP (fun s => s.invoice_id == iid) = 1 :=
        le_antisymm hle hpos
      simp only [persist_risk, hfind]
      have hcount : (db.riskScores.map (fun s =>
          if s.id == score.id then
            { s with composite := comp, version := v, policy_version := pv }
          else s)).countP (fun s => s.invoice_id == iid) =
          db.riskScores.countP (fun s => s.invoice_id == iid) := by
        rw [List.countP_map]
        apply List.countP_congr
        intro a _
        by_cases h : (a.id == score.id) = true <;> simp [Function.comp, h]
      refine ⟨?_, fun hz => absurd hz (by omega), fun _ => by simp, ?_, ?_⟩
      · rw [hcount, hone]
      · refine ⟨{ score with composite := comp, version := v, policy_version := pv },
          ?_, rfl, ?_, rfl, rfl, rfl⟩
        · apply List.mem_map.mpr
          exact ⟨score, hmem, by simp⟩
        · exact beq_iff_eq.mp hp
      · exact contrib_replace _ _ _

theorem C3_persist_risk_upsert_replaces_contributors_witness :
    ((⟨[⟨0, 7, 0, "v1", "seed"⟩], [⟨0, "old", 0, 0, 0, Json.null⟩], 1⟩ :
        RiskDB).riskScores.countP (fun s => s.invoice_id == 7) ≤ 1) ∧
    ((persist_risk ⟨[⟨0, 7, 0, "v1", "seed"⟩], [⟨0, "old", 0, 0, 0, Json.null⟩], 1⟩
        7 (1/2) [⟨"market_outlier", 1, 1/2, 1/2, Json.null⟩] "v1" "pol").1.riskScores.countP
        (fun s => s.invoice_id == 7) = 1 ∧
      ((⟨[⟨0, 7, 0, "v1", "seed"⟩], [⟨0, "old", 0, 0, 0, Json.null⟩], 1⟩ :
          RiskDB).riskScores.countP (fun s => s.invoice_id == 7) = 0 →
        (persist_risk ⟨[⟨0, 7, 0, "v1", "seed"⟩], [⟨0, "old", 0, 0, 0, Json.null⟩], 1⟩
          7 (1/2) [⟨"market_outlier", 1, 1/2, 1/2, Json.null⟩] "v1" "pol").1.riskScores.length =
          (⟨[⟨0, 7, 0, "v1", "seed"⟩], [⟨0, "old", 0, 0, 0, Json.null⟩], 1⟩ :
            RiskDB).riskScores.length + 1) ∧
      ((⟨[⟨0, 7, 0, "v1", "seed"⟩], [⟨0, "old", 0, 0, 0, Json.null⟩], 1⟩ :
          RiskDB).riskScores.countP (fun s => s.invoice_id == 7) ≠ 0 →
        (persist_risk ⟨[⟨0, 7, 0, "v1", "seed"⟩], [⟨0, "old", 0, 0, 0, Json.null⟩], 1⟩
          7 (1/2) [⟨"market_outlier", 1, 1/2, 1/2, Json.null⟩] "v1" "pol").1.riskScores.length =
          (⟨[⟨0, 7, 0, "v1", "seed"⟩], [⟨0, "old", 0, 0, 0, Json.null⟩], 1⟩ :
            RiskDB).riskScores.length) ∧
      (∃ s ∈ (persist_risk ⟨[⟨0, 7, 0, "v1", "seed"⟩], [⟨0, "old", 0, 0, 0, Json.null⟩], 1⟩
          7 (1/2) [⟨"market_outlier", 1, 1/2, 1/2, Json.null⟩] "v1" "pol").1.riskScores,
        s.id = (persist_risk ⟨[⟨0, 7, 0, "v1", "seed"⟩], [⟨0, "old", 0, 0, 0, Json.null⟩], 1⟩
          7 (1/2) [⟨"market_outlier", 1, 1/2, 1/2, Json.null⟩] "v1" "pol").2 ∧
        s.invoice_id = 7 ∧ s.composite = 1/2 ∧ s.version = "v1" ∧ s.policy_version = "pol") ∧
      ((persist_risk ⟨[⟨0, 7, 0, "v1", "seed"⟩], [⟨0, "old", 0, 0, 0, Json.null⟩], 1⟩
          7 (1/2) [⟨"market_outlier", 1, 1/2, 1/2, Json.null⟩] "v1" "pol").1.riskContributors.filter
          (fun c => c.risk_score_id ==
            (persist_risk ⟨[⟨0, 7, 0, "v1", "seed"⟩], [⟨0, "old", 0, 0, 0, Json.null⟩], 1⟩
              7 (1/2) [⟨"market_outlier", 1, 1/2, 1/2, Json.null⟩] "v1" "pol").2)) =
        [⟨"market_outlier", 1, 1/2, 1/2, Json.null⟩].map (contribRow
          (persist_risk ⟨[⟨0, 7, 0, "v1", "seed"⟩], [⟨0, "old", 0, 0, 0, Json.null⟩], 1⟩
            7 (1/2) [⟨"market_outlier", 1, 1/2, 1/2, Json.null⟩] "v1" "pol").2)) :=
  ⟨by decide,
    C3_persist_risk_upsert_replaces_contributors
      ⟨[⟨0, 7, 0, "v1", "seed"⟩], [⟨0, "old", 0, 0, 0, Json.null⟩], 1⟩
      7 (1/2) [⟨"market_outlier", 1, 1/2, 1/2, Json.null⟩] "v1" "pol" (by decide)⟩

lemma getInvoice_setRiskStatus (s : Store) (iid : ℕ) (status : String)
    (notes : Option String) :
    getInvoice (setRiskStatus s iid status notes) iid =
      (getInvoice s iid).map
        (fun inv => { inv with risk_status := status, risk_notes := notes }) := by
  unfold getInvoice setRiskStatus
  rw [List.find?_map]
  have hpf : ((fun inv : InvoiceRow => inv.id == iid) ∘
      (fun inv => if inv.id == iid then
        { inv with risk_status := status, risk_notes := notes } else inv)) =
      (fun inv : InvoiceRow => inv.id == iid) := by
    funext inv
    by_cases h : (inv.id == iid) = true <;> simp [Function.comp, h]
  rw [hpf]
  cases hf : s.invoices.find? (fun inv => inv.id == iid) with
  | none => rfl
  | some a =>
      have ha : (a.id == iid) = true :=
        @List.find?_some _ (fun inv : InvoiceRow => inv.id == iid) a s.invoices hf
      have ha2 : a.id = iid := beq_iff_eq.mp ha
      simp [ha2]

/-- What the failure handler leaves behind: the invoice marked ERROR with
the failure text as notes, a trailing RISK_ERROR event, and the risk
tables untouched. -/
lemma errorRecover_spec (s : Store) (iid : ℕ) (e : String) (inv : InvoiceRow)
    (h : getInvoice s iid = some inv) :
    getInvoice (errorRecover s iid e) iid = some ⟨inv.id, "ERROR", some e⟩ ∧
    (errorRecover s iid e).events = s.events ++
      [⟨iid, "RISK_ERROR", .obj [("invoice_id", .num iid), ("error", .str e)]⟩] ∧
    (errorRecover s iid e).risk = s.risk := by
  simp only [errorRecover, h]
  refine ⟨?_, rfl, rfl⟩
  have hre : getInvoice (recordEvent (setRiskStatus s iid "ERROR" (some e)) iid "RISK_ERROR"
      (.obj [("invoice_id", .num iid), ("error", .str e)])) iid =
      getInvoice (setRiskStatus s iid "ERROR" (some e)) iid := rfl
  rw [hre, getInvoice_setRiskStatus, h]
  rfl

/-- Claim C2: if a collaborator call fails after the invoice was found, the
pipeline rolls back, marks the invoice ERROR with the failure description
as notes, emits RISK_ERROR as the last event and commits; the failure is
never raised to the caller (`run_risk_pipeline` is total and returns the
recovered store), and the RiskScore table is untouched — in particular, if
no RiskScore row existed for the invoice before the run, none exists after
the failed run. -/
theorem C2_pipeline_failure_contained (env : PipelineEnv) (store : Store)
    (iid : ℕ) (actor : String) (e : String) (inv : InvoiceRow)
    (hinv : getInvoice store iid = some inv)
    (hfail : env.ingest = .error e ∨ (env.ingest = .ok () ∧ env.benchmark = .error e)) :
    (∃ row, getInvoice (run_risk_pipeline env store iid actor) iid = some row ∧
       row.risk_status = "ERROR" ∧ row.risk_notes = some e) ∧
    (run_risk_pipeline env store iid actor).events.getLast? =
      some ⟨iid, "RISK_ERROR", .obj [("invoice_id", .num iid), ("error", .str e)]⟩ ∧
    (run_risk_pipeline env store iid actor).risk.riskScores = store.risk.riskScores ∧
    (store.risk.riskScores.countP (fun s => s.invoice_id == iid) = 0 →
      (run_risk_pipeline env store iid actor).risk.riskScores.countP
        (fun s => s.invoice_id == iid) = 0) := by
  have hrun : run_risk_pipeline env store iid actor =
      errorRecover (auditLog (recordEvent (setRiskStatus store iid "IN_PROGRESS" none) iid
        "RISK_STARTED" (.obj [("invoice_id", .num iid), ("actor", .str actor),
          ("timestamp", .str env.timestamp)])) "risk_run_started" "invoice" iid
        (.obj [("actor", .str actor)])) iid e := by
    rcases hfail with h | ⟨h1, h2⟩
    · simp only [run_risk_pipeline, hinv, h]
    · simp only [run_risk_pipeline, hinv, h1, h2]
  have hs1 : getInvoice (auditLog (recordEvent (setRiskStatus store iid "IN_PROGRESS" none) iid
      "RISK_STARTED" (.obj [("invoice_id", .num iid), ("actor", .str actor),
        ("timestamp", .str env.timestamp)])) "risk_run_started" "invoice" iid
      (.obj [("actor", .str actor)])) iid =
      some ⟨inv.id, "IN_PROGRESS", none⟩ := by
    have h0 : getInvoice (auditLog (recordEvent (setRiskStatus store iid "IN_PROGRESS" none) iid
        "RISK_STARTED" (.obj [("invoice_id", .num iid), ("actor", .str actor),
          ("timestamp", .str env.timestamp)])) "risk_run_started" "invoice" iid
        (.obj [("actor", .str actor)])) iid =
        getInvoice (setRiskStatus store iid "IN_PROGRESS" none) iid := rfl
    rw [h0, getInvoice_setRiskStatus, hinv]
    rfl
  obtain ⟨hg, hev, hrisk⟩ := errorRecover_spec _ iid e _ hs1
  rw [hrun]
  refine ⟨⟨⟨inv.id, "ERROR", some e⟩, hg, rfl, rfl⟩, ?_, ?_, ?_⟩
  · rw [hev]
    exact List.getLast?_concat _
  · rw [hrisk]
    rfl
  · intro hz
    rw [hrisk]
    exact hz

theorem C2_pipeline_failure_contained_witness :
    (getInvoice ⟨[⟨1, "PENDING", none⟩], ⟨[], [], 0⟩, [], []⟩ 1 =
      some ⟨1, "PENDING", none⟩) ∧
    ((⟨.ok (), .error "boom", [], [], "seed", 8, "t0"⟩ : PipelineEnv).ingest = .error "boom" ∨
      ((⟨.ok (), .error "boom", [], [], "seed", 8, "t0"⟩ : PipelineEnv).ingest = .ok () ∧
       (⟨.ok (), .error "boom", [], [], "seed", 8, "t0"⟩ : PipelineEnv).benchmark =
         .error "boom")) ∧
    ((∃ row, getInvoice (run_risk_pipeline ⟨.ok (), .error "boom", [], [], "seed", 8, "t0"⟩
        ⟨[⟨1, "PENDING", none⟩], ⟨[], [], 0⟩, [], []⟩ 1 "system") 1 = some row ∧
       row.risk_status = "ERROR" ∧ row.risk_notes = some "boom") ∧
     (run_risk_pipeline ⟨.ok (), .error "boom", [], [], "seed", 8, "t0"⟩
        ⟨[⟨1, "PENDING", none⟩], ⟨[], [], 0⟩, [], []⟩ 1 "system").events.getLast? =
       some ⟨1, "RISK_ERROR", .obj [("invoice_id", .num 1), ("error", .str "boom")]⟩ ∧
     (run_risk_pipeline ⟨.ok (), .error "boom", [], [], "seed", 8, "t0"⟩
        ⟨[⟨1, "PENDING", none⟩], ⟨[], [], 0⟩, [], []⟩ 1 "system").risk.riskScores =
       (⟨[⟨1, "PENDING", none⟩], ⟨[], [], 0⟩, [], []⟩ : Store).risk.riskScores ∧
     ((⟨[⟨1, "PENDING", none⟩], ⟨[], [], 0⟩, [], []⟩ : Store).risk.riskScores.countP
        (fun s => s.invoice_id == 1) = 0 →
      (run_risk_pipeline ⟨.ok (), .error "boom", [], [], "seed", 8, "t0"⟩
        ⟨[⟨1, "PENDING", none⟩], ⟨[], [], 0⟩, [], []⟩ 1 "system").risk.riskScores.countP
        (fun s => s.invoice_id == 1) = 0)) :=
  ⟨rfl, Or.inr ⟨rfl, rfl⟩,
    C2_pipeline_failure_contained ⟨.ok (), .error "boom", [], [], "seed", 8, "t0"⟩
      ⟨[⟨1, "PENDING", none⟩], ⟨[], [], 0⟩, [], []⟩ 1 "system" "boom" ⟨1, "PENDING", none⟩
      rfl (Or.inr ⟨rfl, rfl⟩)⟩

end Finvela
